import Mathlib

/-!
Shallow embedding of the Linux text system of this repository
(`crates/gpui/src/platform/linux/text_system.rs`): font family resolution,
glyph rasterization and line layout, together with theorems checking the
specification's claims against the embedded code.

Modelling conventions:
* `f32` arithmetic is modelled by `ℚ` (exact rationals).
* Rust panics (`unwrap`, `expect`, failed `debug_assert_eq!`, out-of-range or
  non-character-boundary string slicing) are modelled by an `Option` result
  being `none`; recoverable `Result` errors are modelled by `Except`.
* The external font engines (font-kit faces, harfbuzz shaping) are modelled as
  function fields of a `Face` record: the embedded repository code is written
  against these abstract fields exactly as the Rust code is written against the
  library APIs.
-/

/-- Decidable equality for `Except`, used to evaluate embedded results in
witness theorems. -/
instance {ε α : Type} [DecidableEq ε] [DecidableEq α] : DecidableEq (Except ε α) :=
  fun a b =>
    match a, b with
    | Except.ok x, Except.ok y =>
      if h : x = y then isTrue (by rw [h]) else isFalse (by intro hc; cases hc; exact h rfl)
    | Except.error x, Except.error y =>
      if h : x = y then isTrue (by rw [h]) else isFalse (by intro hc; cases hc; exact h rfl)
    | Except.ok _, Except.error _ => isFalse (by intro hc; cases hc)
    | Except.error _, Except.ok _ => isFalse (by intro hc; cases hc)

/-- Style of a font face, mirroring `font_kit::properties::Style`. -/
inductive FontKitStyle
  | normal
  | italic
  | oblique
deriving DecidableEq, Repr

/-- Mirrors `font_kit::properties::Properties`: slant style, numeric weight,
numeric stretch. -/
structure Properties where
  style : FontKitStyle
  weight : ℚ
  stretch : ℚ
deriving DecidableEq, Repr

/-- Font-design-unit metrics of a face (the fields of `font_kit`'s `Metrics`
that the embedded code reads). -/
structure FaceMetrics where
  units_per_em : ℕ
  ascent : ℚ
  descent : ℚ
deriving DecidableEq, Repr

/-- One glyph produced by the harfbuzz shaping engine: `codepoint` is the glyph
id (0 is the notdef sentinel), `cluster` the byte offset inside the shaped
slice, `x_advance` the engine advance in 26.6 fixed point. -/
structure HbGlyph where
  codepoint : ℕ
  cluster : ℕ
  x_advance : ℤ
deriving DecidableEq, Repr

/-- Mirrors `font_kit::hinting::HintingOptions` (only the variants the code
uses; `full` carries the ignored strength value). -/
inductive HintingOptions
  | none
  | full (strength : ℚ)
deriving DecidableEq, Repr

/-- Mirrors `font_kit::canvas::RasterizationOptions` (variants used). -/
inductive RasterizationOptions
  | grayscaleAa
  | subpixelAa
deriving DecidableEq, Repr

/-- Mirrors `pathfinder_geometry::transform2d::Transform2F` restricted to the
scale/translation transforms the code constructs. -/
structure Transform2F where
  sx : ℚ
  sy : ℚ
  tx : ℚ
  ty : ℚ
deriving DecidableEq, Repr

def Transform2F.from_scale (s : ℚ) : Transform2F := ⟨s, s, 0, 0⟩

def Transform2F.from_translation (v : ℚ × ℚ) : Transform2F := ⟨1, 1, v.1, v.2⟩

/-- Composition `a * b` of two axis-aligned affine transforms. -/
def Transform2F.mul (a b : Transform2F) : Transform2F :=
  ⟨a.sx * b.sx, a.sy * b.sy, a.sx * b.tx + a.tx, a.sy * b.ty + a.ty⟩

/-- Mirrors `pathfinder_geometry::rect::RectI` (integer device-pixel
rectangle: origin and size). -/
structure RectI where
  origin_x : ℤ
  origin_y : ℤ
  width : ℤ
  height : ℤ
deriving DecidableEq, Repr

/-- A loaded font face. Data fields mirror what the Rust code reads off a
`font_kit::font::Font`; the function fields model the external font-kit and
harfbuzz engine entry points the code calls on that face. -/
structure Face where
  postscript_name : Option String
  full_name : String
  glyph_for_char : Char → Option ℕ
  properties : Properties
  metrics : FaceMetrics
  /-- `font_kit` `Font::advance` in design units; `Except` models the `Result`. -/
  advance : ℕ → Except Unit (ℚ × ℚ)
  /-- harfbuzz shaping of a text slice with the fixed kern/liga/clig features,
  via the face's font data (`copy_font_data` → `Face::from_bytes` → `shape`). -/
  shape : List Char → List HbGlyph
  /-- `font_kit` `Font::raster_bounds`. -/
  raster_bounds_engine : ℕ → ℚ → Transform2F → HintingOptions → RasterizationOptions →
    Except Unit RectI
  /-- `font_kit` `Font::rasterize_glyph` painting into the canvas pixel buffer
  (in place in Rust, so returning the updated buffer here). -/
  paint : ℕ → ℚ → Transform2F → HintingOptions → RasterizationOptions →
    List ℕ → Except Unit (List ℕ)

/-- The caller-side font query (`crate::Font`): family name, style and weight.
Features are ignored by the embedded code path, stretch is defaulted. -/
structure FontQuery where
  family : String
  style : FontKitStyle
  weight : ℚ

/-- Mirrors `font_into_properties`: stretch is `Default::default()` (normal,
numerically 1). -/
def font_into_properties (f : FontQuery) : Properties :=
  ⟨f.style, f.weight, 1⟩

/-- State of `LinuxTextSystemState`: the two provenance sources (family name →
face handles), the loaded-font store (a `FontId`-indexed append-only vector:
ids are assigned as `loaded_fonts_store.len()` at insertion), and the family
cache (association list, most recent insertion first, mirroring map lookup). -/
structure LinuxTextSystemState where
  memory_source : List (String × List Face)
  system_source : List (String × List Face)
  loaded_fonts_store : List Face
  font_ids_by_family_cache : List (String × List ℕ)

/-- Association-list lookup used for both the sources and the family cache. -/
def lookupAssoc {α : Type} (l : List (String × α)) (k : String) : Option α :=
  (l.find? (fun p => p.1 == k)).map Prod.snd

/-- Mirrors `select_family_by_name` on the memory source with `or_else` fallback
to the system source. -/
def select_family_by_name (s : LinuxTextSystemState) (name : String) :
    Option (List Face) :=
  match lookupAssoc s.memory_source name with
  | some fam => some fam
  | Option.none => lookupAssoc s.system_source name

/-- The body of the face-filter loop of `load_family`: starting from the
current store, keep each face unless `!has_m_glyph && !allowed_bad_font`,
assigning `FontId(store.len())` at insertion. Returns the extended store and
the collected font ids. -/
def loadFamilyLoop (store : List Face) (ids : List ℕ) :
    List Face → List Face × List ℕ
  | [] => (store, ids)
  | font :: rest =>
    let has_m_glyph := (font.glyph_for_char 'm').isSome
    let allowed_bad_font :=
      match font.postscript_name with
      | some n => decide (n ≠ "NotoColorEmoji")
      | Option.none => false
    if !has_m_glyph && !allowed_bad_font then
      loadFamilyLoop store ids rest
    else
      let font_id := store.length
      loadFamilyLoop (store ++ [font]) (ids ++ [font_id]) rest

/-- Mirrors `LinuxTextSystemState::load_family`: normalize the system-UI
sentinel name, select the family (memory source first), filter and insert the
faces. `Except.error` models the propagated selection error. -/
def load_family (s : LinuxTextSystemState) (name0 : String) :
    Except Unit (LinuxTextSystemState × List ℕ) :=
  let name := if name0 = ".SystemUIFont" then "sans-serif" else name0
  match select_family_by_name s name with
  | Option.none => Except.error ()
  | some fonts =>
    let res := loadFamilyLoop s.loaded_fonts_store [] fonts
    Except.ok ({ s with loaded_fonts_store := res.1 }, res.2)

/-- Absolute value on `ℚ` written with an executable `if`, modelling Rust's
`f32::abs` (used instead of the lattice `abs` so that concrete witnesses
reduce). -/
def ratAbs (x : ℚ) : ℚ := if x < 0 then -x else x

/-- Modelled from the spec: `font_kit::matching::find_best_match` is an
external library dependency whose source is not part of this repository.
The spec describes the style-distance metric as: exact slant match preferred,
then minimal numeric weight distance, then minimal stretch distance, with ties
broken by enumeration order (first candidate wins). -/
def find_best_match (candidates : List Properties) (query : Properties) :
    Option ℕ :=
  let key := fun (p : Properties) =>
    ((if p.style = query.style then 0 else 1 : ℕ),
      ratAbs (p.weight - query.weight), ratAbs (p.stretch - query.stretch))
  let lt := fun (a b : ℕ × ℚ × ℚ) =>
    decide (a.1 < b.1 ∨ (a.1 = b.1 ∧
      (a.2.1 < b.2.1 ∨ (a.2.1 = b.2.1 ∧ a.2.2 < b.2.2))))
  let best := candidates.enum.foldl
    (fun acc ip =>
      match acc with
      | Option.none => some (ip.1, key ip.2)
      | some jk => if lt (key ip.2) jk.2 then some (ip.1, key ip.2) else some jk)
    Option.none
  best.map Prod.fst

/-- The candidate-matching tail of `font_id`: read each candidate's properties
from the store (`unwrap` modelled by the outer `Option`), run the best-match
selection (`None` → the `NoMatch` context error) and index the candidate list. -/
def matchInStore (store : List Face) (candidates : List ℕ) (q : FontQuery) :
    Option (Except Unit ℕ) :=
  match candidates.mapM (fun fid => (store.get? fid).map Face.properties) with
  | Option.none => Option.none
  | some props =>
    match find_best_match props (font_into_properties q) with
    | Option.none => some (Except.error ())
    | some ix =>
      match candidates.get? ix with
      | Option.none => Option.none
      | some fid => some (Except.ok fid)

/-- Mirrors `LinuxTextSystem::font_id`: serve candidates from the family cache
when present; otherwise run `load_family`, insert the resulting id list into
the cache, and select the best match among the candidates. The returned state
is the (possibly updated) system state; `none` models a panic. -/
def font_id (s : LinuxTextSystemState) (q : FontQuery) :
    Option (LinuxTextSystemState × Except Unit ℕ) :=
  match lookupAssoc s.font_ids_by_family_cache q.family with
  | some candidates =>
    (matchInStore s.loaded_fonts_store candidates q).map (fun r => (s, r))
  | Option.none =>
    match load_family s q.family with
    | Except.error _ => some (s, Except.error ())
    | Except.ok s1ids =>
      let s2 : LinuxTextSystemState :=
        { s1ids.1 with
          font_ids_by_family_cache :=
            (q.family, s1ids.2) :: s1ids.1.font_ids_by_family_cache }
      (matchInStore s2.loaded_fonts_store s1ids.2 q).map (fun r => (s2, r))

/-- Parameters of a glyph rasterization request
(`crate::RenderGlyphParams`). -/
structure RenderGlyphParams where
  font_id : ℕ
  glyph_id : ℕ
  font_size : ℚ
  scale_factor : ℚ
  is_emoji : Bool
deriving Repr

/-- Pixel formats of `font_kit::canvas::Format` used by the code, with their
bytes-per-pixel. -/
inductive Format
  | a8
  | rgba32
deriving DecidableEq, Repr

def Format.bytesPerPixel : Format → ℕ
  | .a8 => 1
  | .rgba32 => 4

/-- Mirrors `font_kit::canvas::Canvas`: a size and a flat pixel byte buffer. -/
structure Canvas where
  size : ℤ × ℤ
  pixels : List ℕ
deriving DecidableEq, Repr

/-- `Canvas::new`: zero-filled buffer of `width * height * bytes-per-pixel`. -/
def Canvas.new (size : ℤ × ℤ) (format : Format) : Canvas :=
  ⟨size, List.replicate (size.1.toNat * size.2.toNat * format.bytesPerPixel) 0⟩

/-- Error taxonomy of the rasterization path: the `EmptyBounds` precondition
failure and errors propagated from the engine. -/
inductive RasterError
  | emptyBounds
  | engine
deriving DecidableEq, Repr

/-- The RGBA→BGRA conversion loop: `chunks_exact_mut(4)` with `swap(0, 2)`;
a trailing chunk shorter than 4 bytes is left untouched. -/
def swapRB : List ℕ → List ℕ
  | r :: g :: b :: a :: rest => b :: g :: r :: a :: swapRB rest
  | rest => rest

/-- Mirrors `LinuxTextSystemState::raster_bounds` (behind
`glyph_raster_bounds`): look the face up (`unwrap` → `none` on panic) and query
engine bounds with `HintingOptions::None` and grayscale antialiasing. -/
def raster_bounds (s : LinuxTextSystemState) (params : RenderGlyphParams) :
    Option (Except Unit RectI) :=
  match s.loaded_fonts_store.get? params.font_id with
  | Option.none => Option.none
  | some font =>
    let scale := Transform2F.from_scale params.scale_factor
    some (font.raster_bounds_engine params.glyph_id params.font_size scale
      HintingOptions.none RasterizationOptions.grayscaleAa)

/-- Mirrors `LinuxTextSystemState::rasterize_glyph`: empty-bounds precondition,
full hinting, AA mode chosen by `is_emoji`, bounds recomputed via the engine,
`Format::A8` canvas allocation, paint, the `debug_assert_eq!` between canvas
size and the caller-supplied bounds size (failure → `none`), and the BGRA
channel swap for emoji. -/
def rasterize_glyph (s : LinuxTextSystemState) (params : RenderGlyphParams)
    (glyph_bounds : RectI) :
    Option (Except RasterError ((ℤ × ℤ) × List ℕ)) :=
  if glyph_bounds.width = 0 ∨ glyph_bounds.height = 0 then
    some (Except.error RasterError.emptyBounds)
  else
    let hinting_options := HintingOptions.full 0
    let rasterization_options :=
      if params.is_emoji then RasterizationOptions.subpixelAa
      else RasterizationOptions.grayscaleAa
    match s.loaded_fonts_store.get? params.font_id with
    | Option.none => Option.none
    | some font =>
      let scale := Transform2F.from_scale params.scale_factor
      match font.raster_bounds_engine params.glyph_id params.font_size scale
          hinting_options rasterization_options with
      | Except.error _ => some (Except.error RasterError.engine)
      | Except.ok rb =>
        let canvas := Canvas.new (rb.width, rb.height) Format.a8
        match font.paint params.glyph_id params.font_size
            (Transform2F.mul
              (Transform2F.from_translation (-(rb.origin_x : ℚ), -(rb.origin_y : ℚ)))
              scale)
            hinting_options rasterization_options canvas.pixels with
        | Except.error _ => some (Except.error RasterError.engine)
        | Except.ok px =>
          if canvas.size = (glyph_bounds.width, glyph_bounds.height) then
            let px := if params.is_emoji then swapRB px else px
            some (Except.ok (canvas.size, px))
          else
            Option.none

/-- A caller-supplied font run (`crate::FontRun`): byte length and face id. -/
structure FontRun where
  len : ℕ
  font_id : ℕ
deriving DecidableEq, Repr

/-- Output glyph of shaping (`crate::ShapedGlyph`). -/
structure ShapedGlyph where
  id : ℕ
  position : ℚ × ℚ
  index : ℕ
  is_emoji : Bool
deriving DecidableEq, Repr

/-- Output run of shaping (`crate::ShapedRun`). -/
structure ShapedRun where
  font_id : ℕ
  glyphs : List ShapedGlyph
deriving DecidableEq, Repr

/-- Aggregate output of `layout_line` (`crate::LineLayout`). -/
structure LineLayout where
  font_size : ℚ
  width : ℚ
  ascent : ℚ
  descent : ℚ
  runs : List ShapedRun
  len : ℕ
deriving DecidableEq, Repr

/-- Number of UTF-8 bytes of one character. -/
def utf8Size (c : Char) : ℕ :=
  if c.toNat < 0x80 then 1
  else if c.toNat < 0x800 then 2
  else if c.toNat < 0x10000 then 3
  else 4

/-- UTF-8 byte length of a text (Rust `str::len`). -/
def utf8Len (text : List Char) : ℕ :=
  (text.map utf8Size).sum

/-- Byte-indexed slicing `&text[..n]` on UTF-8 text modelled as a character
list: returns the split when `n` bytes fall exactly on a character boundary
within the text, `none` (the Rust slicing panic) when `n` overruns the text or
falls inside a multi-byte character. -/
def takeBytes : ℕ → List Char → Option (List Char × List Char)
  | 0, cs => some ([], cs)
  | _ + 1, [] => Option.none
  | n + 1, c :: cs =>
    if utf8Size c ≤ n + 1 then
      (takeBytes (n + 1 - utf8Size c) cs).map (fun p => (c :: p.1, p.2))
    else
      Option.none

/-- The per-glyph loop of `layout_line`: notdef glyphs (`codepoint == 0`)
advance the pen by the engine advance divided by 64 and are skipped; other
glyphs are emitted at the current pen position with the engine cluster, then
the pen advances by the face-queried advance scaled by
`font_size / units_per_em`. `none` models the `expect` panic when the advance
query fails. Returns the emitted glyphs and the final pen offset. -/
def processGlyphs (font : Face) (font_size : ℚ) :
    List HbGlyph → ℚ → Option (List ShapedGlyph × ℚ)
  | [], x_offset => some ([], x_offset)
  | info :: rest, x_offset =>
    if info.codepoint = 0 then
      processGlyphs font font_size rest (x_offset + (info.x_advance : ℚ) / 64)
    else
      match font.advance info.codepoint with
      | Except.error _ => Option.none
      | Except.ok adv =>
        let position := (x_offset, (0 : ℚ))
        let x1 := x_offset + adv.1 * font_size / (font.metrics.units_per_em : ℚ)
        (processGlyphs font font_size rest x1).map
          (fun out =>
            (⟨info.codepoint, position, info.cluster, false⟩ :: out.1, out.2))

/-- The per-run loop of `layout_line`: look the face up, fold ascent/descent
maxima, slice the run's bytes off the remaining text, shape the slice, skip
runs that shape to nothing, process glyphs and emit a `ShapedRun`. Returns the
final pen offset, ascent, descent and the shaped runs. -/
def layoutRuns (store : List Face) (font_size : ℚ) :
    List FontRun → List Char → ℚ → ℚ → ℚ →
    Option (ℚ × ℚ × ℚ × List ShapedRun)
  | [], _, x_offset, ascent, descent => some (x_offset, ascent, descent, [])
  | run :: rest, text, x_offset, ascent, descent =>
    match store.get? run.font_id with
    | Option.none => Option.none
    | some font =>
      let m := font.metrics
      let ascent1 := max ascent (m.ascent * font_size / (m.units_per_em : ℚ))
      let descent1 := max descent (ratAbs m.descent * font_size / (m.units_per_em : ℚ))
      match takeBytes run.len text with
      | Option.none => Option.none
      | some slices =>
        let shape_info := font.shape slices.1
        if shape_info = [] then
          layoutRuns store font_size rest slices.2 x_offset ascent1 descent1
        else
          match processGlyphs font font_size shape_info x_offset with
          | Option.none => Option.none
          | some glyphs_x =>
            (layoutRuns store font_size rest slices.2 glyphs_x.2 ascent1 descent1).map
              (fun out =>
                (out.1, out.2.1, out.2.2.1,
                  ⟨run.font_id, glyphs_x.1⟩ :: out.2.2.2))

/-- Mirrors `LinuxTextSystemState::layout_line`: run the per-run loop from a
zero pen offset and package the result, echoing the full input text's byte
length in `len`. -/
def layout_line (store : List Face) (text : List Char) (font_size : ℚ)
    (font_runs : List FontRun) : Option LineLayout :=
  (layoutRuns store font_size font_runs text 0 0 0).map
    (fun out => ⟨font_size, out.1, out.2.1, out.2.2.1, out.2.2.2, utf8Len text⟩)

/-- Pen contribution of one shaped glyph, as the spec describes it: a notdef
glyph contributes the engine advance converted from 26.6 fixed point, any
other glyph contributes the face-queried advance scaled by
`font_size / units_per_em` (the engine advance is ignored). -/
def penContrib (font : Face) (font_size : ℚ) (g : HbGlyph) : ℚ :=
  if g.codepoint = 0 then (g.x_advance : ℚ) / 64
  else
    match font.advance g.codepoint with
    | Except.ok adv => adv.1 * font_size / (font.metrics.units_per_em : ℚ)
    | Except.error _ => 0

/-- Pen offsets at which the non-notdef glyphs of a shaping result are
emitted, starting from pen offset `x`. -/
def emittedPens (font : Face) (font_size : ℚ) :
    List HbGlyph → ℚ → List ℚ
  | [], _ => []
  | g :: gs, x =>
    if g.codepoint = 0 then emittedPens font font_size gs (x + penContrib font font_size g)
    else x :: emittedPens font font_size gs (x + penContrib font font_size g)

/-- Zero out the engine-reported advance of every non-notdef glyph (notdef
glyphs keep theirs, since the code consumes it). -/
def eraseXAdvance (g : HbGlyph) : HbGlyph :=
  if g.codepoint = 0 then g else { g with x_advance := 0 }

/-- Face ids of the font runs that survive to the output of `layout_line`:
exactly those whose text slice shapes to a non-empty glyph sequence. -/
def emittedRunIds (store : List Face) : List FontRun → List Char → List ℕ
  | [], _ => []
  | run :: rest, text =>
    match store.get? run.font_id, takeBytes run.len text with
    | some font, some slices =>
      if font.shape slices.1 = [] then emittedRunIds store rest slices.2
      else run.font_id :: emittedRunIds store rest slices.2
    | _, _ => []

/-!
Concrete faces, states and requests used by the witness and counterexample
theorems below. The engine function fields are explicit stubs standing for
particular behaviors of the external font-kit/harfbuzz engines.
-/

/-- Engine stub: bounds query returning a fixed rectangle for every input. -/
def constBounds (r : RectI) :
    ℕ → ℚ → Transform2F → HintingOptions → RasterizationOptions → Except Unit RectI :=
  fun _ _ _ _ _ => Except.ok r

/-- Engine stub: an in-place paint that draws nothing, returning the canvas
buffer unchanged. -/
def idPaint :
    ℕ → ℚ → Transform2F → HintingOptions → RasterizationOptions → List ℕ →
    Except Unit (List ℕ) :=
  fun _ _ _ _ _ px => Except.ok px

/-- A face with no glyph coverage at all (in particular no 'm') whose
postscript name is "TestFont": the spec's scenario of a stub face lacking
Latin coverage. -/
def testFace : Face :=
  { postscript_name := some "TestFont"
    full_name := "Test Font"
    glyph_for_char := fun _ => Option.none
    properties := ⟨FontKitStyle.normal, 400, 1⟩
    metrics := ⟨1000, 800, -200⟩
    advance := fun _ => Except.ok (500, 0)
    shape := fun _ => []
    raster_bounds_engine := constBounds ⟨0, 0, 1, 1⟩
    paint := idPaint }

/-- A face lacking an 'm' glyph whose postscript name is the emoji exception. -/
def emojiFace : Face :=
  { testFace with
    postscript_name := some "NotoColorEmoji"
    full_name := "Noto Color Emoji" }

/-- Fresh system state whose memory source has the family "TestFont" with the
single Latin-less face `testFace`. -/
def stateC1 : LinuxTextSystemState :=
  { memory_source := [("TestFont", [testFace])]
    system_source := []
    loaded_fonts_store := []
    font_ids_by_family_cache := [] }

/-- Fresh system state whose memory source has a family holding only the
Latin-less emoji face. -/
def stateEmoji : LinuxTextSystemState :=
  { stateC1 with memory_source := [("EmojiFamily", [emojiFace])] }

def queryC1 : FontQuery := ⟨"TestFont", FontKitStyle.normal, 400⟩

/-- Regular face (weight 400) with an 'm' glyph. -/
def regularFace : Face :=
  { testFace with
    glyph_for_char := fun _ => some 1
    properties := ⟨FontKitStyle.normal, 400, 1⟩ }

/-- Bold face (weight 700) with an 'm' glyph. -/
def boldFace : Face :=
  { testFace with
    glyph_for_char := fun _ => some 1
    properties := ⟨FontKitStyle.normal, 700, 1⟩ }

/-- Fresh state: family "sans-serif" with Regular registered first, Bold
second. -/
def stateC4 : LinuxTextSystemState :=
  { memory_source := [("sans-serif", [regularFace, boldFace])]
    system_source := []
    loaded_fonts_store := []
    font_ids_by_family_cache := [] }

/-- A face with an 'm' glyph, used for the resolution idempotence witness. -/
def goodFace : Face :=
  { testFace with
    glyph_for_char := fun c => if c = 'm' then some 1 else Option.none }

/-- Fresh state with one valid-face family "Fam". -/
def stateC9 : LinuxTextSystemState :=
  { memory_source := [("Fam", [goodFace])]
    system_source := []
    loaded_fonts_store := []
    font_ids_by_family_cache := [] }

/-- The state after the first successful resolution against `stateC9`: the
face is loaded with Face Id 0 and the family cache is populated. -/
def stateC9Cached : LinuxTextSystemState :=
  { memory_source := [("Fam", [goodFace])]
    system_source := []
    loaded_fonts_store := [goodFace]
    font_ids_by_family_cache := [("Fam", [0])] }

def queryC9 : FontQuery := ⟨"Fam", FontKitStyle.normal, 400⟩

/-- A face whose engine bounds are 2×2 regardless of options. -/
def rastFace : Face :=
  { testFace with raster_bounds_engine := constBounds ⟨0, 0, 2, 2⟩ }

/-- State with `rastFace` loaded at Face Id 0. -/
def stateC2 : LinuxTextSystemState :=
  { stateC1 with loaded_fonts_store := [rastFace] }

/-- A color-glyph (emoji) rasterization request against Face Id 0. -/
def paramsC2 : RenderGlyphParams := ⟨0, 1, 12, 1, true⟩

def rectC2 : RectI := ⟨0, 0, 2, 2⟩

/-- A face whose engine bounds depend on the hinting options: 1×1 under
`HintingOptions.none`, 2×2 under full hinting. -/
def sensFace : Face :=
  { testFace with
    raster_bounds_engine := fun _ _ _ h _ =>
      match h with
      | HintingOptions.none => Except.ok ⟨0, 0, 1, 1⟩
      | HintingOptions.full _ => Except.ok ⟨0, 0, 2, 2⟩ }

/-- State with the hinting-sensitive face loaded at Face Id 0. -/
def stateC3 : LinuxTextSystemState :=
  { stateC1 with loaded_fonts_store := [sensFace] }

/-- A grayscale rasterization request against Face Id 0. -/
def paramsC3 : RenderGlyphParams := ⟨0, 1, 12, 1, false⟩

/-- A face whose engine bounds are 2×3 regardless of options. -/
def insFace : Face :=
  { testFace with raster_bounds_engine := constBounds ⟨0, 0, 2, 3⟩ }

/-- State with the option-insensitive face loaded at Face Id 0. -/
def stateC3W : LinuxTextSystemState :=
  { stateC1 with loaded_fonts_store := [insFace] }

/-- A face for layout witnesses: glyph id 5 has advance 500 design units,
shaping a non-empty slice yields that single glyph with cluster 0 and engine
advance 640 (26.6 units), shaping an empty slice yields nothing. -/
def layoutFace : Face :=
  { testFace with
    advance := fun g => if g = 5 then Except.ok (500, 0) else Except.error ()
    shape := fun s => if s = [] then [] else [⟨5, 0, 640⟩] }

/-- Store with `layoutFace` at Face Id 0. -/
def storeL : List Face := [layoutFace]

/-- Shaping output with a leading notdef glyph (engine advance 64 = one pixel)
followed by glyph 5 whose engine advance (9999) differs wildly from the
face-queried advance. -/
def gsW : List HbGlyph := [⟨0, 0, 64⟩, ⟨5, 1, 9999⟩]

/-!
Theorems settling the claims. Helper lemmas carry no claim name and are shared
between claims; each claim's theorem is stated over the embedded definitions
above.
-/

/-- Claim C1 (code bug): the spec requires `load_family` to exclude a face
that has no glyph for 'm' unless its recorded name is the emoji exception
"NotoColorEmoji", so resolving a family whose only face is a Latin-less
"TestFont" must fail with NoMatch. The code computes
`allowed_bad_font = postscript_name != "NotoColorEmoji"`, which is the
opposite: the Latin-less "TestFont" face is kept and receives Face Id 0,
resolution succeeds, while a Latin-less "NotoColorEmoji" face is the one
excluded. -/
theorem c1_m_glyph_filter_inverted :
    (load_family stateC1 "TestFont").map Prod.snd = Except.ok [0]
    ∧ (font_id stateC1 queryC1).map (fun r => r.2) = some (Except.ok 0)
    ∧ (load_family stateEmoji "EmojiFamily").map Prod.snd = Except.ok [] :=
  ⟨rfl, rfl, rfl⟩

/-- Claim C4: with family "sans-serif" holding Regular (weight 400, registered
first, Face Id 0) and Bold (weight 700, Face Id 1), requesting weight 700
selects Bold, and requesting weight 550 (weight distance 150 to both) selects
the first-registered Regular. The best-match metric is modelled from the spec,
since `font_kit::matching::find_best_match` is an external dependency. -/
theorem c4_weight_selection :
    (font_id stateC4 ⟨"sans-serif", FontKitStyle.normal, 700⟩).map (fun r => r.2) =
      some (Except.ok 1)
    ∧ (font_id stateC4 ⟨"sans-serif", FontKitStyle.normal, 550⟩).map (fun r => r.2) =
      some (Except.ok 0) := by
  constructor <;>
    norm_num [font_id, lookupAssoc, load_family, select_family_by_name, loadFamilyLoop,
      matchInStore, find_best_match, font_into_properties, stateC4, regularFace, boldFace,
      testFace, ratAbs, List.enum, List.enumFrom, List.mapM, List.mapM.loop, List.foldl]

/-- Claim C8: `rasterize_glyph` with caller bounds of zero width or zero
height fails with the EmptyBounds error before looking up the face or painting
anything, returning no pixel buffer. -/
theorem c8_empty_bounds_error (s : LinuxTextSystemState) (params : RenderGlyphParams)
    (b : RectI) (h : b.width = 0 ∨ b.height = 0) :
    rasterize_glyph s params b = some (Except.error RasterError.emptyBounds) := by
  unfold rasterize_glyph
  rw [if_pos h]

/-- Witness for C8: a 0×5 bounds request fails with EmptyBounds. -/
theorem c8_empty_bounds_error_witness :
    rasterize_glyph stateC2 paramsC2 ⟨0, 0, 0, 5⟩ =
      some (Except.error RasterError.emptyBounds) :=
  c8_empty_bounds_error stateC2 paramsC2 ⟨0, 0, 0, 5⟩ (Or.inl rfl)

/-- Claim C2 (code bug): the canvas is allocated with `Format::A8` regardless
of `is_emoji`, so a successful color-glyph rasterization of a 2×2 glyph
returns a 4-byte buffer (1 byte per pixel), not the 16 bytes (4 bytes per
pixel) the claim requires for color glyphs — even though the code then runs an
RGBA→BGRA swap over 4-byte chunks, which presupposes 4 bytes per pixel. -/
theorem c2_emoji_canvas_is_one_byte_per_pixel :
    rasterize_glyph stateC2 paramsC2 rectC2 = some (Except.ok ((2, 2), [0, 0, 0, 0]))
    ∧ ([0, 0, 0, 0] : List ℕ).length = 2 * 2 * 1
    ∧ ([0, 0, 0, 0] : List ℕ).length ≠ 2 * 2 * 4 :=
  ⟨rfl, rfl, by decide⟩

/-- Counterexample to Claim C3 as stated: `raster_bounds` queries the engine
with `HintingOptions::None` while `rasterize_glyph` recomputes bounds with
`HintingOptions::Full`, so the two computations are NOT given identical
inputs. For an engine whose bounds depend on hinting, passing
`rasterize_glyph` exactly the bounds produced by `raster_bounds` trips the
`debug_assert_eq!` (modelled as the panic value `none`) instead of returning a
canvas of that size. -/
theorem c3_bounds_inputs_differ :
    raster_bounds stateC3 paramsC3 = some (Except.ok ⟨0, 0, 1, 1⟩)
    ∧ rasterize_glyph stateC3 paramsC3 ⟨0, 0, 1, 1⟩ = Option.none :=
  ⟨rfl, rfl⟩

/-- Claim C3 (amended): when the face's engine bounds computation is
insensitive to the hinting and antialiasing options, a rasterization request
whose caller bounds come from `raster_bounds` passes the size assertion and
returns a canvas whose size equals the caller-supplied bounds' size. -/
theorem c3_canvas_size_matches_for_option_insensitive_engine
    (s : LinuxTextSystemState)
    (params : RenderGlyphParams) (font : Face) (b : RectI) (px : List ℕ)
    (hface : s.loaded_fonts_store.get? params.font_id = some font)
    (hins : ∀ h1 o1 h2 o2,
      font.raster_bounds_engine params.glyph_id params.font_size
        (Transform2F.from_scale params.scale_factor) h1 o1 =
      font.raster_bounds_engine params.glyph_id params.font_size
        (Transform2F.from_scale params.scale_factor) h2 o2)
    (hb : raster_bounds s params = some (Except.ok b))
    (hw : ¬b.width = 0) (hh : ¬b.height = 0)
    (hpaint : font.paint params.glyph_id params.font_size
        (Transform2F.mul
          (Transform2F.from_translation (-(b.origin_x : ℚ), -(b.origin_y : ℚ)))
          (Transform2F.from_scale params.scale_factor))
        (HintingOptions.full 0)
        (if params.is_emoji then RasterizationOptions.subpixelAa
          else RasterizationOptions.grayscaleAa)
        (List.replicate (b.width.toNat * b.height.toNat * 1) 0) = Except.ok px) :
    rasterize_glyph s params b =
      some (Except.ok ((b.width, b.height),
        if params.is_emoji then swapRB px else px)) := by
  unfold raster_bounds at hb
  rw [hface] at hb
  have hbounds : font.raster_bounds_engine params.glyph_id params.font_size
      (Transform2F.from_scale params.scale_factor)
      (HintingOptions.full 0)
      (if params.is_emoji then RasterizationOptions.subpixelAa
        else RasterizationOptions.grayscaleAa) = Except.ok b := by
    rw [hins (HintingOptions.full 0)
      (if params.is_emoji then RasterizationOptions.subpixelAa
        else RasterizationOptions.grayscaleAa)
      HintingOptions.none RasterizationOptions.grayscaleAa]
    exact Option.some.inj hb
  unfold rasterize_glyph
  rw [if_neg (by push_neg; exact ⟨hw, hh⟩)]
  simp only [hface, hbounds, Canvas.new, Format.bytesPerPixel, hpaint, if_true]

/-- Witness for the amended C3: an option-insensitive 2×3 engine rasterizes to
a 2×3 canvas matching the caller bounds obtained from `raster_bounds`. -/
theorem c3_canvas_size_matches_witness :
    rasterize_glyph stateC3W ⟨0, 1, 12, 1, false⟩ ⟨0, 0, 2, 3⟩ =
      some (Except.ok ((2, 3), List.replicate 6 0)) :=
  c3_canvas_size_matches_for_option_insensitive_engine stateC3W ⟨0, 1, 12, 1, false⟩
    insFace ⟨0, 0, 2, 3⟩ (List.replicate 6 0) rfl (fun _ _ _ _ => rfl) rfl
    (by decide) (by decide) rfl

/-- Looking a key up in an association list right after inserting it at the
front returns the inserted value. -/
theorem lookupAssoc_cons_self {α : Type} (k : String) (v : α) (l : List (String × α)) :
    lookupAssoc ((k, v) :: l) k = some v := by
  simp [lookupAssoc, List.find?]

/-- Claim C9: font resolution is idempotent within a run: if `font_id`
succeeds with Face Id `fid` producing state `s'`, calling it again with the
same query on `s'` returns the same Face Id and leaves the state unchanged
(the second call is served from the family cache without re-enumeration). -/
theorem c9_font_id_idempotent (s : LinuxTextSystemState) (q : FontQuery)
    (s' : LinuxTextSystemState) (fid : ℕ)
    (h : font_id s q = some (s', Except.ok fid)) :
    font_id s' q = some (s', Except.ok fid) := by
  unfold font_id at h
  cases hc : lookupAssoc s.font_ids_by_family_cache q.family with
  | some candidates =>
    simp only [hc] at h
    cases hm : matchInStore s.loaded_fonts_store candidates q with
    | none => simp [hm] at h
    | some r =>
      simp only [hm, Option.map_some', Option.some.injEq, Prod.mk.injEq] at h
      obtain ⟨hs, hr⟩ := h
      subst hs
      unfold font_id
      simp only [hc, hm, Option.map_some', hr]
  | none =>
    simp only [hc] at h
    cases hl : load_family s q.family with
    | error e => simp [hl] at h
    | ok p =>
      simp only [hl] at h
      cases hm : matchInStore p.1.loaded_fonts_store p.2 q with
      | none => simp [hm] at h
      | some r =>
        simp only [hm, Option.map_some', Option.some.injEq, Prod.mk.injEq] at h
        obtain ⟨hs, hr⟩ := h
        subst hs
        unfold font_id
        simp only [lookupAssoc_cons_self, hm, Option.map_some', hr]

/-- Witness for C9: the state reached by resolving "Fam" once resolves it
again to the same Face Id 0 without changing state. -/
theorem c9_font_id_idempotent_witness :
    font_id stateC9Cached queryC9 = some (stateC9Cached, Except.ok 0) :=
  c9_font_id_idempotent stateC9 queryC9 stateC9Cached 0 rfl

/-- Characterization of the per-glyph loop of `layout_line`: whenever it
succeeds, (1) the emitted glyphs are exactly the non-notdef shaped glyphs, in
order, carrying the engine glyph id, the engine cluster unchanged (hence
run-slice-relative) and baseline y = 0; (2) their x positions are the pen
offsets accumulated from the per-glyph contributions; (3) the final pen offset
is the start offset plus the sum of contributions (engine advance / 64 for
notdef, face-queried advance scaled by `font_size / units_per_em` otherwise);
and (4) the result is unchanged when the engine-reported advances of
non-notdef glyphs are zeroed out. -/
theorem processGlyphs_characterization (font : Face) (font_size : ℚ) :
    ∀ (gs : List HbGlyph) (x : ℚ) (res : List ShapedGlyph × ℚ),
      processGlyphs font font_size gs x = some res →
      res.1.map (fun sg => (sg.id, sg.index, sg.position.2)) =
        (gs.filter (fun g => g.codepoint != 0)).map
          (fun g => (g.codepoint, g.cluster, (0 : ℚ)))
      ∧ res.1.map (fun sg => sg.position.1) = emittedPens font font_size gs x
      ∧ res.2 = x + (gs.map (penContrib font font_size)).sum
      ∧ processGlyphs font font_size (gs.map eraseXAdvance) x = some res := by
  intro gs
  induction gs with
  | nil =>
    intro x res h
    simp only [processGlyphs, Option.some.injEq] at h
    subst h
    exact ⟨rfl, rfl, by simp, rfl⟩
  | cons g gs ih =>
    intro x res h
    by_cases hg : g.codepoint = 0
    · have hpc0 : penContrib font font_size g = (g.x_advance : ℚ) / 64 := by
        simp [penContrib, hg]
      simp only [processGlyphs, if_pos hg] at h
      obtain ⟨h1, h2, h3, h4⟩ := ih (x + (g.x_advance : ℚ) / 64) res h
      refine ⟨?_, ?_, ?_, ?_⟩
      · rwa [List.filter_cons_of_neg (by simp [hg])]
      · rw [emittedPens, if_pos hg, hpc0]
        exact h2
      · rw [h3, List.map_cons, List.sum_cons, hpc0]
        ring
      · rw [List.map_cons]
        have hge : eraseXAdvance g = g := by simp [eraseXAdvance, hg]
        rw [hge]
        simp only [processGlyphs, if_pos hg]
        exact h4
    · have hgb : (g.codepoint != 0) = true := by simp [hg]
      simp only [processGlyphs, if_neg hg] at h
      cases hadv : font.advance g.codepoint with
      | error e => simp only [hadv] at h; exact absurd h (by simp)
      | ok adv =>
        simp only [hadv] at h
        cases hrec : processGlyphs font font_size gs
            (x + adv.1 * font_size / (font.metrics.units_per_em : ℚ)) with
        | none =>
          simp only [hrec, Option.map_none'] at h
          exact absurd h (by simp)
        | some res' =>
          simp only [hrec, Option.map_some', Option.some.injEq] at h
          subst h
          obtain ⟨h1, h2, h3, h4⟩ := ih _ res' hrec
          have hpc : penContrib font font_size g =
              adv.1 * font_size / (font.metrics.units_per_em : ℚ) := by
            simp [penContrib, hg, hadv]
          refine ⟨?_, ?_, ?_, ?_⟩
          · rw [show List.filter (fun g => g.codepoint != 0) (g :: gs) =
                g :: List.filter (fun g => g.codepoint != 0) gs by
                simp [List.filter_cons, hgb]]
            rw [List.map_cons, List.map_cons, h1]
          · rw [List.map_cons, emittedPens, if_neg hg, hpc, h2]
          · rw [List.map_cons, List.sum_cons, hpc]
            rw [h3]
            ring
          · rw [List.map_cons]
            have hce : (eraseXAdvance g).codepoint = g.codepoint := by
              simp [eraseXAdvance, hg]
            have hcl : (eraseXAdvance g).cluster = g.cluster := by
              simp [eraseXAdvance, hg]
            simp only [processGlyphs, hce, if_neg hg, hadv, hcl, h4,
              Option.map_some']

/-- Claim C5: in the per-glyph loop, a notdef glyph (id 0) only advances the
pen (by the engine advance / 64, reflected in `emittedPens`/`penContrib`) and
is never emitted, while every other shaped glyph is emitted in order at the
current pen offset with baseline y = 0, carrying the engine's cluster
unchanged — i.e. the byte offset within the shaped run slice, not the whole
line. -/
theorem c5_notdef_skipped_others_emitted (font : Face) (font_size : ℚ)
    (gs : List HbGlyph) (x : ℚ) (res : List ShapedGlyph × ℚ)
    (h : processGlyphs font font_size gs x = some res) :
    res.1.map (fun sg => (sg.id, sg.index, sg.position.2)) =
      (gs.filter (fun g => g.codepoint != 0)).map
        (fun g => (g.codepoint, g.cluster, (0 : ℚ)))
    ∧ res.1.map (fun sg => sg.position.1) = emittedPens font font_size gs x :=
  ⟨(processGlyphs_characterization font font_size gs x res h).1,
    (processGlyphs_characterization font font_size gs x res h).2.1⟩

/-- Witness for C5: shaping output with a leading notdef then glyph 5 emits
only glyph 5, at pen offset 1 (= 64/64), cluster 1, baseline 0. -/
theorem c5_notdef_skipped_others_emitted_witness :
    (([⟨5, (1, 0), 1, false⟩], 6) : List ShapedGlyph × ℚ).1.map
        (fun sg => (sg.id, sg.index, sg.position.2)) =
      (gsW.filter (fun g => g.codepoint != 0)).map
        (fun g => (g.codepoint, g.cluster, (0 : ℚ)))
    ∧ (([⟨5, (1, 0), 1, false⟩], 6) : List ShapedGlyph × ℚ).1.map
        (fun sg => sg.position.1) = emittedPens layoutFace 10 gsW 0 :=
  c5_notdef_skipped_others_emitted layoutFace 10 gsW 0 ([⟨5, (1, 0), 1, false⟩], 6)
    (by norm_num [processGlyphs, layoutFace, gsW, testFace])

/-- Claim C6: the pen advance of every emitted (non-notdef) glyph is the
face-queried advance scaled by `font_size / units_per_em` — the final pen
offset is the start plus the sum of `penContrib` values, whose non-notdef case
reads `Face.advance`, and the whole result is invariant under zeroing the
shaping engine's reported advances on non-notdef glyphs. -/
theorem c6_advance_requeried_from_face (font : Face) (font_size : ℚ)
    (gs : List HbGlyph) (x : ℚ) (res : List ShapedGlyph × ℚ)
    (h : processGlyphs font font_size gs x = some res) :
    res.2 = x + (gs.map (penContrib font font_size)).sum
    ∧ processGlyphs font font_size (gs.map eraseXAdvance) x = some res :=
  ⟨(processGlyphs_characterization font font_size gs x res h).2.2.1,
    (processGlyphs_characterization font font_size gs x res h).2.2.2⟩

/-- Witness for C6: glyph 5's engine advance 9999 is ignored — the pen moves
by the face-queried 500 design units scaled to 5 pixels, and zeroing the
engine advance changes nothing. -/
theorem c6_advance_requeried_from_face_witness :
    (([⟨5, (1, 0), 1, false⟩], 6) : List ShapedGlyph × ℚ).2 =
      0 + (gsW.map (penContrib layoutFace 10)).sum
    ∧ processGlyphs layoutFace 10 (gsW.map eraseXAdvance) 0 =
      some (([⟨5, (1, 0), 1, false⟩], 6) : List ShapedGlyph × ℚ) :=
  c6_advance_requeried_from_face layoutFace 10 gsW 0 ([⟨5, (1, 0), 1, false⟩], 6)
    (by norm_num [processGlyphs, layoutFace, gsW, testFace])

/-- The per-run loop emits one `ShapedRun` per font run whose slice shapes to
a non-empty glyph sequence (in order, tagged with that run's face id), and
skips the rest, so the output run list is at most as long as the input. -/
theorem layoutRuns_shaped_runs (store : List Face) (font_size : ℚ) :
    ∀ (runs : List FontRun) (text : List Char) (x asc desc : ℚ)
      (out : ℚ × ℚ × ℚ × List ShapedRun),
      layoutRuns store font_size runs text x asc desc = some out →
      out.2.2.2.map ShapedRun.font_id = emittedRunIds store runs text
      ∧ out.2.2.2.length ≤ runs.length := by
  intro runs
  induction runs with
  | nil =>
    intro text x asc desc out h
    simp only [layoutRuns, Option.some.injEq] at h
    subst h
    exact ⟨rfl, by simp⟩
  | cons run rest ih =>
    intro text x asc desc out h
    simp only [layoutRuns] at h
    cases hget : store.get? run.font_id with
    | none => simp only [hget] at h; exact absurd h (by simp)
    | some font =>
      simp only [hget] at h
      cases htake : takeBytes run.len text with
      | none => simp only [htake] at h; exact absurd h (by simp)
      | some slices =>
        simp only [htake] at h
        by_cases hsh : font.shape slices.1 = []
        · rw [if_pos hsh] at h
          obtain ⟨h1, h2⟩ := ih slices.2 x _ _ out h
          refine ⟨?_, le_trans h2 (Nat.le_succ _)⟩
          rw [h1]
          have hget2 : store[run.font_id]? = some font := by
            rw [← List.get?_eq_getElem?]; exact hget
          simp [emittedRunIds, hget2, htake, hsh]
        · rw [if_neg hsh] at h
          cases hpg : processGlyphs font font_size (font.shape slices.1) x with
          | none => simp only [hpg] at h; exact absurd h (by simp)
          | some gx =>
            simp only [hpg] at h
            obtain ⟨out', hrec, hout⟩ := Option.map_eq_some'.mp h
            obtain ⟨h1, h2⟩ := ih slices.2 gx.2 _ _ out' hrec
            subst hout
            constructor
            · simp only [List.map_cons, h1]
              have hget2 : store[run.font_id]? = some font := by
                rw [← List.get?_eq_getElem?]; exact hget
              simp [emittedRunIds, hget2, htake, hsh]
            · simpa using Nat.succ_le_succ h2

/-- Claim C10: a font run whose slice shapes to an empty glyph sequence
contributes no `ShapedRun` to the output of `layout_line`: the emitted runs
are exactly those with a non-empty shaping result (witnessed by their face
ids), so the output run list can be shorter than the input list. -/
theorem c10_empty_shaping_contributes_no_run (store : List Face)
    (text : List Char) (font_size : ℚ) (runs : List FontRun) (l : LineLayout)
    (h : layout_line store text font_size runs = some l) :
    l.runs.map ShapedRun.font_id = emittedRunIds store runs text
    ∧ l.runs.length ≤ runs.length := by
  unfold layout_line at h
  obtain ⟨out, hrec, hl⟩ := Option.map_eq_some'.mp h
  obtain ⟨h1, h2⟩ := layoutRuns_shaped_runs store font_size runs text 0 0 0 out hrec
  subst hl
  exact ⟨h1, h2⟩

/-- Witness for C10: a zero-length run shapes to nothing and is dropped — two
input runs, one output run. -/
theorem c10_empty_shaping_contributes_no_run_witness :
    (⟨10, 5, 8, 2, [⟨0, [⟨5, (0, 0), 0, false⟩]⟩], 1⟩ : LineLayout).runs.map
        ShapedRun.font_id =
      emittedRunIds storeL [⟨0, 0⟩, ⟨1, 0⟩] ['A']
    ∧ (⟨10, 5, 8, 2, [⟨0, [⟨5, (0, 0), 0, false⟩]⟩], 1⟩ : LineLayout).runs.length ≤
      ([⟨0, 0⟩, ⟨1, 0⟩] : List FontRun).length :=
  c10_empty_shaping_contributes_no_run storeL ['A'] 10 [⟨0, 0⟩, ⟨1, 0⟩]
    ⟨10, 5, 8, 2, [⟨0, [⟨5, (0, 0), 0, false⟩]⟩], 1⟩
    (by norm_num [layout_line, layoutRuns, processGlyphs, takeBytes, utf8Size,
      utf8Len, storeL, layoutFace, testFace, ratAbs, show 'A'.toNat = 65 from rfl])

/-- Counterexample to Claim C7 as stated: the two-byte character 'é' split
into two one-byte runs is a partition of the text's byte length (1 + 1 = 2),
yet `layout_line` does not return a `LineLayout` at all — the byte slice
`&text[0..1]` falls mid-codepoint and panics (modelled by `none`). -/
theorem c7_mid_codepoint_boundary_panics :
    utf8Len ['é'] = 1 + 1
    ∧ layout_line storeL ['é'] 12 [⟨1, 0⟩, ⟨1, 0⟩] = Option.none :=
  ⟨rfl, rfl⟩

/-- Claim C7 (amended): whenever `layout_line` returns a `LineLayout` — in
particular for run lists partitioning the text at UTF-8 character boundaries
with loaded faces and resolvable advances — its `len` equals the input text's
byte length; and with no runs (in particular for empty input) the result has
empty runs and zero width. -/
theorem c7_len_echo (store : List Face) (text : List Char) (font_size : ℚ)
    (runs : List FontRun) (l : LineLayout)
    (h : layout_line store text font_size runs = some l) :
    l.len = utf8Len text ∧ (runs = [] → l.runs = [] ∧ l.width = 0) := by
  unfold layout_line at h
  obtain ⟨out, hrec, hl⟩ := Option.map_eq_some'.mp h
  subst hl
  refine ⟨rfl, ?_⟩
  rintro rfl
  simp only [layoutRuns, Option.some.injEq] at hrec
  subst hrec
  exact ⟨rfl, rfl⟩

/-- Witness for the amended C7: empty text with no runs lays out to the empty
layout with `len` 0, no runs and zero width. -/
theorem c7_len_echo_witness :
    (⟨7, 0, 0, 0, [], 0⟩ : LineLayout).len = utf8Len []
    ∧ (⟨7, 0, 0, 0, [], 0⟩ : LineLayout).runs = []
    ∧ (⟨7, 0, 0, 0, [], 0⟩ : LineLayout).width = 0 :=
  ⟨(c7_len_echo [] [] 7 [] ⟨7, 0, 0, 0, [], 0⟩ rfl).1,
    ((c7_len_echo [] [] 7 [] ⟨7, 0, 0, 0, [], 0⟩ rfl).2 rfl).1,
    ((c7_len_echo [] [] 7 [] ⟨7, 0, 0, 0, [], 0⟩ rfl).2 rfl).2⟩
